import Mathlib

/-!
Verification of the RAG classifier core (chunking, indexing, retrieval,
pipeline orchestration) against its natural-language specification.

Texts are modelled as lists of characters (Python strings are sequences of
code points); Python integers are `Int`; fallible operations return `Except`.
-/

namespace RagClassifier

/-- Python `str.strip()` on a character list: drop whitespace from both ends. -/
def stripChars (l : List Char) : List Char :=
  ((l.dropWhile Char.isWhitespace).reverse.dropWhile Char.isWhitespace).reverse

/-- The chunking loop of `_split_text` (src/app/rag.py lines 29-40): walk a
window of width `cs` across `text`; each window `text[start:end]` with
`end = min (start + cs) text.length` is trimmed and, when non-empty, emitted;
after a window reaching the end of the text the loop stops, otherwise
`start` becomes `end - ov`. The recursion is driven by an explicit `fuel`
counter; `splitText` supplies `text.length`, which always suffices because
under the validated `ov < cs` the start offset strictly increases each
iteration (`splitLoop_fuel_le` below proves the result is independent of any
sufficient fuel). -/
def splitLoop (text : List Char) (cs ov : Nat) : Nat → Nat → List (List Char)
  | 0, _ => []
  | fuel + 1, start =>
    if start < text.length then
      let e := min (start + cs) text.length
      let chunk := stripChars ((text.drop start).take (e - start))
      let emitted := if chunk = [] then ([] : List (List Char)) else [chunk]
      if text.length ≤ e then
        emitted
      else
        emitted ++ splitLoop text cs ov fuel (e - ov)
    else
      []

/-- `_split_text` (src/app/rag.py lines 19-40): returns `[]` for
empty/whitespace-only text, then validates `chunk_size > 0`,
`overlap ≥ 0`, `overlap < chunk_size` (raising `ValueError` on violation),
then runs the chunking loop from offset 0. -/
def splitText (text : List Char) (chunkSize overlap : Int) :
    Except String (List (List Char)) :=
  if stripChars text = [] then
    .ok []
  else if chunkSize ≤ 0 then
    .error "chunk_size must be > 0"
  else if overlap < 0 then
    .error "overlap must be >= 0"
  else if chunkSize ≤ overlap then
    .error "overlap must be smaller than chunk_size"
  else
    .ok (splitLoop text chunkSize.toNat overlap.toNat text.length 0)

/-- The `Chunk` dataclass of src/app/rag.py lines 13-16. -/
structure Chunk where
  source : String
  text : String
deriving DecidableEq, Repr

/-- Payload of a search hit as read by `retrieve` (src/app/rag.py lines
139-144): `payload.get("text")` / `payload.get("source")` yield a string or
nothing (missing key, or a non-string value, both modelled as `none`). -/
structure HitPayload where
  text : Option String
  source : Option String
deriving DecidableEq, Repr

/-- A search hit: `hit.payload` may itself be `None`. -/
structure Hit where
  payload : Option HitPayload
deriving DecidableEq, Repr

/-- `retrieve` (src/app/rag.py lines 118-145): embed the query, call the
similarity search inside a try/except that turns any failure into `[]`,
then keep each hit whose payload has string `text` and `source` fields.
The embedding and search capabilities are external collaborators, passed
as functions; `α` is the vector type. -/
def retrieve {α : Type} (embedFn : String → α)
    (searchFn : α → Except String (List Hit)) (query : String) : List Chunk :=
  match searchFn (embedFn query) with
  | .error _ => []
  | .ok hits =>
      hits.filterMap fun hit =>
        let payload := hit.payload.getD ⟨none, none⟩
        match payload.text, payload.source with
        | some t, some s => some ⟨s, t⟩
        | _, _ => none

/-- Modelled from the spec: the record id computed by the multi-tenant
`index_document` (imported by src/app/main.py but absent from src/app/rag.py,
whose `_iter_points` is the single-tenant revision) is "a stable hash of
`(tenant_id, document_id, chunk_index)`", with distinct inputs yielding
distinct ids; modelled as the injective triple encoding. -/
def recordId (tenantId documentId : Int) (chunkIndex : Nat) :
    Int × Int × Nat :=
  (tenantId, documentId, chunkIndex)

/-- A vector record as written by indexing: its deterministic id plus the
payload fields relevant here (the vector itself is opaque). -/
structure IndexedPoint where
  id : Int × Int × Nat
  source : String
  text : String
deriving DecidableEq, Repr

/-- Modelled from the spec: the points the multi-tenant `index_document`
writes for a document — one per chunk, the i-th carrying
`recordId tenantId documentId i`. -/
def indexPoints (tenantId documentId : Int) (source : String)
    (chunks : List String) : List IndexedPoint :=
  chunks.enum.map fun p => ⟨recordId tenantId documentId p.1, source, p.2⟩

/-- Upsert semantics of the vector index (spec §6): writing a record whose id
is already present overwrites that record in place; otherwise it appends. -/
def upsertPoint (store : List IndexedPoint) (p : IndexedPoint) :
    List IndexedPoint :=
  if store.any (fun q => q.id = p.id) then
    store.map fun q => if q.id = p.id then p else q
  else
    store ++ [p]

/-- A stored vector record as seen by retrieval (spec §6 schema):
`payload.tenant_id` integer, `payload.source` / `payload.text` strings that a
malformed or legacy record may lack. -/
structure StoredRecord where
  tenantId : Int
  text : Option String
  source : Option String
deriving DecidableEq, Repr

/-- Insert a record into a list sorted by descending score. -/
def insertDesc (score : StoredRecord → Int) (r : StoredRecord) :
    List StoredRecord → List StoredRecord
  | [] => [r]
  | q :: qs => if score q < score r then r :: q :: qs else q :: insertDesc score r qs

/-- Sort records by descending score (the index's own similarity ranking). -/
def sortDesc (score : StoredRecord → Int) (l : List StoredRecord) :
    List StoredRecord :=
  l.foldr (insertDesc score) []

/-- Modelled from the spec: the similarity search issued by the multi-tenant
`retrieve` (absent from src/app/rag.py; src/app/graph.py calls it with
`user_id`) is "restricted to records whose `tenant_id` payload field equals
the caller's `tenant_id`, requesting at most `top_k` results, ordered by the
index's own similarity ranking". The ranking is abstracted as a score
function. -/
def searchTenant (db : List StoredRecord) (tenant : Int)
    (score : StoredRecord → Int) (topK : Nat) : List StoredRecord :=
  (sortDesc score (db.filter fun r => r.tenantId = tenant)).take topK

/-- The tolerant read of one hit: a record missing `text` or `source` is
dropped. -/
def recordToChunk (r : StoredRecord) : Option Chunk :=
  match r.text, r.source with
  | some t, some s => some ⟨s, t⟩
  | _, _ => none

/-- Modelled from the spec: the multi-tenant `retrieve` — tenant-filtered
similarity search, then the tolerant per-hit read. -/
def retrieveTenant (db : List StoredRecord) (tenant : Int)
    (score : StoredRecord → Int) (topK : Nat) : List Chunk :=
  (searchTenant db tenant score topK).filterMap recordToChunk

/-- The pipeline state of src/app/graph.py lines 13-18: `user_id` and
`question` are the inputs of `graph.invoke`; the other fields are absent
until their stage writes them. -/
structure RAGState where
  userId : Int
  question : String
  retrieved : Option (List Chunk)
  answer : Option String
  label : Option String
deriving DecidableEq, Repr

/-- Python `str.strip()` on a `String`. -/
def stripString (s : String) : String :=
  String.mk (stripChars s.data)

/-- `retrieve_node` (src/app/graph.py lines 21-36): calls the multi-tenant
retrieve with the state's question and `user_id` and merges
`{"retrieved": chunks}` into the state. -/
def retrieveNode (db : List StoredRecord) (score : StoredRecord → Int)
    (topK : Nat) (s : RAGState) : RAGState :=
  { s with retrieved := some (retrieveTenant db s.userId score topK) }

/-- The prompt built by `generate_node` (src/app/graph.py lines 40-47). -/
def buildPrompt (question context : String) : String :=
  "Use only context from company documents. " ++
    "If data is insufficient, answer exactly: BRAK_DANYCH.\n\n" ++
    "Pytanie: " ++ question ++ "\n\n" ++
    "Kontekst:\n" ++ context

/-- `generate_node` (src/app/graph.py lines 39-55): joins the retrieved chunk
texts with blank lines, sends the fixed system message and the built prompt
to the chat capability (passed as a function of the two message contents),
and merges the trimmed reply as `{"answer": ...}`. -/
def generateNode (chat : String → String → String) (s : RAGState) : RAGState :=
  let context := String.intercalate "\n\n" ((s.retrieved.getD []).map Chunk.text)
  let prompt := buildPrompt s.question context
  let reply := chat "Jestes asystentem do analiz i raportow firmowych." prompt
  { s with answer := some (stripString reply) }

/-- The classification of src/app/graph.py line 60: `NO_ANSWER` exactly when
the answer equals the sentinel. -/
def classifyLabel (answer : String) : String :=
  if answer = "BRAK_DANYCH" then "NO_ANSWER" else "ANSWERED"

/-- `classify_node` (src/app/graph.py lines 58-60): reads the answer
(defaulting to `""`) and merges `{"label": ...}`. -/
def classifyNode (s : RAGState) : RAGState :=
  { s with label := some (classifyLabel (s.answer.getD "")) }

/-- A trivially total embedding capability, for concrete instantiations. -/
def constEmbed : String → Int := fun _ => 0

/-- A similarity-search capability that always fails. -/
def failingSearch : Int → Except String (List Hit) := fun _ =>
  .error "index unavailable"

/-! ## Helper lemmas -/

lemma dropWhile_length_le (p : Char → Bool) :
    ∀ l : List Char, (l.dropWhile p).length ≤ l.length := by
  intro l
  induction l with
  | nil => simp
  | cons a l ih =>
    rw [List.dropWhile_cons]
    by_cases h : p a = true
    · simp only [if_pos h]
      exact Nat.le_succ_of_le ih
    · simp only [if_neg h]
      exact Nat.le_refl _

lemma stripChars_length (l : List Char) : (stripChars l).length ≤ l.length := by
  unfold stripChars
  calc ((l.dropWhile Char.isWhitespace).reverse.dropWhile
          Char.isWhitespace).reverse.length
      = ((l.dropWhile Char.isWhitespace).reverse.dropWhile
          Char.isWhitespace).length := List.length_reverse _
    _ ≤ (l.dropWhile Char.isWhitespace).reverse.length :=
        dropWhile_length_le _ _
    _ = (l.dropWhile Char.isWhitespace).length := List.length_reverse _
    _ ≤ l.length := dropWhile_length_le _ _

lemma window_chunk_bound (text : List Char) (cs start e : Nat)
    (he : e = min (start + cs) text.length) :
    (stripChars ((text.drop start).take (e - start))).length ≤ cs := by
  have h1 := stripChars_length ((text.drop start).take (e - start))
  have h2 : ((text.drop start).take (e - start)).length ≤ e - start := by
    simp [List.length_take]
  have h3 : e ≤ start + cs := by rw [he]; exact min_le_left _ _
  omega

lemma splitLoop_chunk_sound (text : List Char) (cs ov : Nat) :
    ∀ (fuel start : Nat) (c : List Char),
      c ∈ splitLoop text cs ov fuel start → c ≠ [] ∧ c.length ≤ cs := by
  intro fuel
  induction fuel with
  | zero => intro start c hc; simp [splitLoop] at hc
  | succ f ih =>
    intro start c hc
    simp only [splitLoop] at hc
    by_cases hlt : start < text.length
    · simp only [if_pos hlt] at hc
      by_cases hch :
          stripChars ((text.drop start).take
            (min (start + cs) text.length - start)) = []
      · by_cases hend : text.length ≤ min (start + cs) text.length
        · simp [hch, hend] at hc
        · simp only [hch, if_pos rfl, if_neg hend, List.nil_append] at hc
          exact ih _ c hc
      · by_cases hend : text.length ≤ min (start + cs) text.length
        · simp only [if_neg hch, if_pos hend, List.mem_singleton] at hc
          subst hc
          exact ⟨hch, window_chunk_bound text cs start _ rfl⟩
        · simp only [if_neg hch, if_neg hend, List.cons_append,
            List.nil_append, List.mem_cons] at hc
          rcases hc with hc | hc
          · subst hc
            exact ⟨hch, window_chunk_bound text cs start _ rfl⟩
          · exact ih _ c hc
    · simp [hlt] at hc

lemma splitLoop_fuel_le (text : List Char) (cs ov : Nat) (hov : ov < cs) :
    ∀ (fuel fuel' start : Nat), text.length - start ≤ fuel →
      text.length - start ≤ fuel' →
      splitLoop text cs ov fuel start = splitLoop text cs ov fuel' start := by
  intro fuel
  induction fuel with
  | zero =>
    intro fuel' start h h'
    have hge : ¬ start < text.length := by omega
    cases fuel' with
    | zero => rfl
    | succ f' => simp [splitLoop, hge]
  | succ f ih =>
    intro fuel' start h h'
    cases fuel' with
    | zero =>
      have hge : ¬ start < text.length := by omega
      simp [splitLoop, hge]
    | succ f' =>
      simp only [splitLoop]
      by_cases hlt : start < text.length
      · simp only [if_pos hlt]
        by_cases hend : text.length ≤ min (start + cs) text.length
        · simp only [if_pos hend]
        · simp only [if_neg hend]
          have he : min (start + cs) text.length = start + cs := by
            rcases Nat.le_total (start + cs) text.length with hle | hle
            · exact Nat.min_eq_left hle
            · exact absurd (by rw [Nat.min_eq_right hle]) hend
          congr 1
          apply ih
          · omega
          · omega
      · simp [hlt]

lemma insertDesc_mem (score : StoredRecord → Int) (r : StoredRecord) :
    ∀ (l : List StoredRecord) (a : StoredRecord),
      a ∈ insertDesc score r l → a = r ∨ a ∈ l := by
  intro l
  induction l with
  | nil => intro a ha; simp [insertDesc] at ha; exact Or.inl ha
  | cons q qs ih =>
    intro a ha
    rw [insertDesc] at ha
    by_cases h : score q < score r
    · rw [if_pos h, List.mem_cons] at ha
      rcases ha with ha | ha
      · exact Or.inl ha
      · exact Or.inr ha
    · rw [if_neg h, List.mem_cons] at ha
      rcases ha with ha | ha
      · subst ha; exact Or.inr (List.mem_cons_self _ _)
      · rcases ih a ha with h2 | h2
        · exact Or.inl h2
        · exact Or.inr (List.mem_cons_of_mem _ h2)

lemma sortDesc_mem (score : StoredRecord → Int) :
    ∀ (l : List StoredRecord) (a : StoredRecord),
      a ∈ sortDesc score l → a ∈ l := by
  intro l
  induction l with
  | nil => intro a ha; simp [sortDesc] at ha
  | cons q qs ih =>
    intro a ha
    have ha2 : a ∈ insertDesc score q (sortDesc score qs) := ha
    rcases insertDesc_mem score q _ a ha2 with h | h
    · subst h; exact List.mem_cons_self _ _
    · exact List.mem_cons_of_mem _ (ih a h)

/-! ## Claim theorems -/

/-- C5: the classification stage is a pure function of the answer string:
`label = NO_ANSWER` iff the answer is exactly `BRAK_DANYCH` (case-sensitive,
no normalization); every other string yields `ANSWERED`. -/
theorem classifyLabel_iff_sentinel :
    ∀ answer : String,
      (classifyLabel answer = "NO_ANSWER" ↔ answer = "BRAK_DANYCH") ∧
      (answer ≠ "BRAK_DANYCH" → classifyLabel answer = "ANSWERED") := by
  intro a
  by_cases h : a = "BRAK_DANYCH" <;> simp [classifyLabel, h]

/-- Witness for C5: `BRAK_DANYCH ` with a trailing space is classified
`ANSWERED`. -/
theorem classifyLabel_iff_sentinel_witness :
    classifyLabel "BRAK_DANYCH " = "ANSWERED" :=
  (classifyLabel_iff_sentinel "BRAK_DANYCH ").2 (by decide)

/-- C6: whenever the underlying similarity-search call fails, `retrieve`
returns the empty sequence instead of propagating the failure. -/
theorem retrieve_search_error_empty :
    ∀ (α : Type) (embedFn : String → α)
      (searchFn : α → Except String (List Hit)) (query e : String),
      searchFn (embedFn query) = Except.error e →
      retrieve embedFn searchFn query = [] := by
  intro α ef sf q e h
  unfold retrieve
  rw [h]

/-- Witness for C6 at a concrete always-failing search capability. -/
theorem retrieve_search_error_empty_witness :
    failingSearch (constEmbed "any question") = Except.error "index unavailable" ∧
    retrieve constEmbed failingSearch "any question" = [] :=
  ⟨rfl, retrieve_search_error_empty Int constEmbed failingSearch
    "any question" "index unavailable" rfl⟩

/-- C10: empty or whitespace-only text yields `ok []` before any parameter
validation, so no error is raised even for invalid `chunk_size`/`overlap`. -/
theorem splitText_blank_text_ok_empty :
    ∀ (text : List Char) (cs ov : Int), stripChars text = [] →
      splitText text cs ov = Except.ok [] := by
  intro t cs ov h
  unfold splitText
  rw [if_pos h]

/-- Witness for C10: a whitespace-only text with `chunk_size = 0` and
`overlap = 7 ≥ chunk_size` still returns `ok []`, not an error. -/
theorem splitText_blank_text_ok_empty_witness :
    stripChars " ".data = [] ∧ splitText " ".data 0 7 = Except.ok [] :=
  ⟨by decide, splitText_blank_text_ok_empty " ".data 0 7 (by decide)⟩

/-- Counterexample to C3 as stated: with the empty text and the invalid
parameters `chunk_size = 0`, `overlap = 0` (violating both `chunk_size > 0`
and `overlap < chunk_size`), `_split_text` returns `ok []` — it does not
fail, because the emptiness check precedes parameter validation. -/
theorem splitText_invalid_params_counterexample :
    splitText [] 0 0 = Except.ok [] := rfl

/-- C3 amended: for every text that is not empty or whitespace-only, invalid
parameters (`chunk_size ≤ 0`, `overlap < 0`, or `overlap ≥ chunk_size`)
always fail with a `ValueError` and produce no output sequence. -/
theorem splitText_invalid_params_error :
    ∀ (text : List Char) (cs ov : Int), stripChars text ≠ [] →
      (cs ≤ 0 ∨ ov < 0 ∨ cs ≤ ov) → (splitText text cs ov).isOk = false := by
  intro text cs ov hne hbad
  unfold splitText
  split_ifs with h1 h2 h3 h4 <;> first | rfl | (exact absurd h1 hne) | omega

/-- Witness for amended C3: spec scenario 2, `split("abc", 10, 10)` fails. -/
theorem splitText_invalid_params_error_witness :
    stripChars "abc".data ≠ [] ∧ (splitText "abc".data 10 10).isOk = false :=
  ⟨by decide, splitText_invalid_params_error "abc".data 10 10 (by decide)
    (Or.inr (Or.inr (by decide)))⟩

set_option maxRecDepth 8000 in
/-- C4 amended: splitting `'A'` repeated 1200 times with `chunk_size = 500`,
`overlap = 100` yields exactly 3 chunks of lengths 500, 500, 400 — the third
chunk is `text[800:1200]` because the start offset advances by
`500 - 100 = 400` each iteration (0, 400, 800), not 200 as the spec's
scenario arithmetic says. -/
theorem splitText_scenario1_lengths :
    (splitText (List.replicate 1200 'A') 500 100).map (List.map List.length) =
      Except.ok [500, 500, 400] := rfl

set_option maxRecDepth 8000 in
/-- Counterexample to C4 as stated: the chunk lengths are not
`[500, 500, 200]`. -/
theorem splitText_scenario1_counterexample :
    (splitText (List.replicate 1200 'A') 500 100).map (List.map List.length) ≠
      Except.ok [500, 500, 200] := by
  intro h
  have h2 : (splitText (List.replicate 1200 'A') 500 100).map
      (List.map List.length) = Except.ok [500, 500, 400] := rfl
  rw [h2] at h
  simp at h

/-- C8: each pipeline stage writes only its own output field — `retrieve`
adds `retrieved`, `generate` adds `answer`, `classify` adds `label` — and
leaves the user id, the question, and every field written by a prior stage
unchanged. -/
theorem nodes_frame :
    ∀ (db : List StoredRecord) (score : StoredRecord → Int) (topK : Nat)
      (chat : String → String → String) (s : RAGState),
      ((retrieveNode db score topK s).userId = s.userId ∧
       (retrieveNode db score topK s).question = s.question ∧
       (retrieveNode db score topK s).answer = s.answer ∧
       (retrieveNode db score topK s).label = s.label) ∧
      ((generateNode chat s).userId = s.userId ∧
       (generateNode chat s).question = s.question ∧
       (generateNode chat s).retrieved = s.retrieved ∧
       (generateNode chat s).label = s.label) ∧
      ((classifyNode s).userId = s.userId ∧
       (classifyNode s).question = s.question ∧
       (classifyNode s).retrieved = s.retrieved ∧
       (classifyNode s).answer = s.answer) := by
  intro db score topK chat s
  exact ⟨⟨rfl, rfl, rfl, rfl⟩, ⟨rfl, rfl, rfl, rfl⟩, ⟨rfl, rfl, rfl, rfl⟩⟩

/-- C1: tenant isolation — every chunk returned by the multi-tenant retrieve
originates from a stored record of the requesting tenant; no record of
another tenant can contribute, regardless of its similarity score. -/
theorem retrieveTenant_isolation :
    ∀ (db : List StoredRecord) (tenant : Int) (score : StoredRecord → Int)
      (topK : Nat), 1 ≤ topK →
      ∀ c ∈ retrieveTenant db tenant score topK,
        c ∈ (db.filter fun r => r.tenantId = tenant).filterMap recordToChunk := by
  intro db tenant score topK htop c hc
  unfold retrieveTenant searchTenant at hc
  rw [List.mem_filterMap] at hc
  obtain ⟨r, hr, hrc⟩ := hc
  have hr2 : r ∈ sortDesc score (db.filter fun r => r.tenantId = tenant) :=
    List.take_subset _ _ hr
  have hr3 : r ∈ db.filter (fun r => r.tenantId = tenant) :=
    sortDesc_mem score _ r hr2
  exact List.mem_filterMap.mpr ⟨r, hr3, hrc⟩

/-- A two-tenant store in which tenant 2's record scores strictly higher
(is nearer to the query) than tenant 1's. -/
def dbEx : List StoredRecord :=
  [⟨1, some "alpha", some "a.txt"⟩, ⟨2, some "beta", some "b.txt"⟩]

/-- A similarity score under which tenant 2's record is the nearest. -/
def scoreEx : StoredRecord → Int := fun r => r.tenantId

/-- Witness for C1: querying as tenant 1 with `top_k = 1` over `dbEx`
returns tenant 1's chunk even though tenant 2's record is nearer. -/
theorem retrieveTenant_isolation_witness :
    1 ≤ 1 ∧
    retrieveTenant dbEx 1 scoreEx 1 = [Chunk.mk "a.txt" "alpha"] ∧
    Chunk.mk "a.txt" "alpha" ∈
      (dbEx.filter fun r => r.tenantId = 1).filterMap recordToChunk :=
  ⟨Nat.le_refl 1, by decide,
    retrieveTenant_isolation dbEx 1 scoreEx 1 (Nat.le_refl 1)
      (Chunk.mk "a.txt" "alpha") (by decide)⟩

/-- C2: the record id written by indexing is the pure, injective function
`(tenant_id, document_id, chunk_index) ↦ id`: the i-th point of an indexing
run carries `recordId tenant document i` (so re-indexing the same chunk
yields the same id, and distinct tenants, documents, or indices yield
distinct ids), and upserting a record whose id is already present overwrites
in place rather than duplicating (re-upserting is a no-op). -/
theorem recordId_pure_and_upsert_idempotent :
    (∀ (t d : Int) (i : Nat) (t' d' : Int) (i' : Nat),
       recordId t d i = recordId t' d' i' ↔ (t = t' ∧ d = d' ∧ i = i')) ∧
    (∀ (t d : Int) (src : String) (chunks : List String),
       (indexPoints t d src chunks).map IndexedPoint.id =
         (List.range chunks.length).map (recordId t d)) ∧
    (∀ (store : List IndexedPoint) (p : IndexedPoint),
       upsertPoint (upsertPoint store p) p = upsertPoint store p) := by
  refine ⟨?_, ?_, ?_⟩
  · intro t d i t' d' i'
    simp [recordId]
  · intro t d src chunks
    unfold indexPoints
    rw [List.map_map]
    have h1 : (IndexedPoint.id ∘ fun p : Nat × String =>
        IndexedPoint.mk (recordId t d p.1) src p.2) =
        (recordId t d ∘ Prod.fst) := rfl
    rw [h1, ← List.map_map, List.enum_map_fst]
  · intro store p
    by_cases h : store.any (fun q => q.id = p.id)
    · have hup : upsertPoint store p =
          store.map fun q => if q.id = p.id then p else q := by
        rw [upsertPoint, if_pos h]
      rw [List.any_eq_true] at h
      obtain ⟨q, hq, hqid⟩ := h
      rw [decide_eq_true_eq] at hqid
      have h1 : (store.map fun q => if q.id = p.id then p else q).any
          (fun q => q.id = p.id) = true := by
        rw [List.any_eq_true]
        refine ⟨p, List.mem_map.mpr ⟨q, hq, by rw [if_pos hqid]⟩, by simp⟩
      rw [hup, upsertPoint, if_pos h1, List.map_map]
      apply List.map_congr_left
      intro a _
      by_cases hid : a.id = p.id <;> simp [hid]
    · have hup : upsertPoint store p = store ++ [p] := by
        rw [upsertPoint, if_neg h]
      have h1 : (store ++ [p]).any (fun q => q.id = p.id) = true := by
        rw [List.any_eq_true]
        exact ⟨p, List.mem_append_right _ (List.mem_singleton_self p), by simp⟩
      have h2 : ∀ q ∈ store, ¬ q.id = p.id := by
        intro q hq hqid
        exact h (List.any_eq_true.mpr ⟨q, hq, decide_eq_true hqid⟩)
      rw [hup, upsertPoint, if_pos h1, List.map_append]
      have h3 : (store.map fun q => if q.id = p.id then p else q) =
          store.map id :=
        List.map_congr_left fun q hq => by rw [if_neg (h2 q hq)]; rfl
      rw [h3, List.map_id]
      simp

/-- C7: under valid parameters, every chunk `_split_text` returns is
non-empty and at most `chunk_size` long. -/
theorem splitText_chunks_nonempty_bounded :
    ∀ (text : List Char) (cs ov : Int), 0 < cs → 0 ≤ ov → ov < cs →
      ∀ (res : List (List Char)), splitText text cs ov = Except.ok res →
        ∀ c ∈ res, c ≠ [] ∧ (c.length : Int) ≤ cs := by
  intro text cs ov h1 h2 h3 res hres c hc
  unfold splitText at hres
  split_ifs at hres with hb hcs hov hvo
  · injection hres with h
    subst h
    simp at hc
  · injection hres with h
    subst h
    have hs := splitLoop_chunk_sound text cs.toNat ov.toNat text.length 0 c hc
    refine ⟨hs.1, ?_⟩
    have := hs.2
    omega

/-- Witness for C7 at `split("abcdef", 4, 1) = ["abcd", "def"]`. -/
theorem splitText_chunks_nonempty_bounded_witness :
    (0 : Int) < 4 ∧ (0 : Int) ≤ 1 ∧ (1 : Int) < 4 ∧
    splitText "abcdef".data 4 1 = Except.ok ["abcd".data, "def".data] ∧
    ("abcd".data ≠ [] ∧ (("abcd".data.length : Int) ≤ 4)) :=
  ⟨by decide, by decide, by decide, rfl,
    splitText_chunks_nonempty_bounded "abcdef".data 4 1 (by decide) (by decide)
      (by decide) ["abcd".data, "def".data] rfl "abcd".data
      (by decide)⟩

/-- C9: the chunking loop terminates under valid parameters: validation
succeeds (the result is `ok`), and the loop's result is independent of any
fuel of at least `text.length` — each iteration either emits the final
window and stops or advances the start offset by the positive step
`chunk_size - overlap`, so `text.length` iterations always suffice
(`splitLoop_fuel_le`). -/
theorem splitText_loop_terminates :
    ∀ (text : List Char) (cs ov : Int) (fuel : Nat), 0 < cs → 0 ≤ ov →
      ov < cs → text.length ≤ fuel →
      (splitText text cs ov).isOk = true ∧
      splitLoop text cs.toNat ov.toNat fuel 0 =
        splitLoop text cs.toNat ov.toNat text.length 0 := by
  intro text cs ov fuel h1 h2 h3 hfuel
  constructor
  · unfold splitText
    split_ifs with hb hcs hov hvo
    · rfl
    · omega
    · omega
    · omega
    · rfl
  · exact splitLoop_fuel_le text cs.toNat ov.toNat (by omega) fuel text.length 0
      (by omega) (by omega)

/-- Witness for C9 at `text = "abc"`, `chunk_size = 2`, `overlap = 1`,
`fuel = 99`. -/
theorem splitText_loop_terminates_witness :
    (splitText "abc".data 2 1).isOk = true ∧
    splitLoop "abc".data 2 1 99 0 = splitLoop "abc".data 2 1 3 0 :=
  splitText_loop_terminates "abc".data 2 1 99 (by decide) (by decide)
    (by decide) (by decide)

end RagClassifier
